import Mathlib

set_option maxHeartbeats 1000000

/-!
Verification of the `lounge` logging package (`lounge.go`).

The embedding below translates the Go source into Lean:

* Go maps (`map[string]string`) become association lists (`PairsMap`).
  Go map iteration order is unspecified; the embedding fixes list order as
  its determinization, and every theorem about key/value rendering is
  stated in an order-insensitive way (lookups and token membership).
* Go map *values* are references to shared mutable storage.  `With` in the
  source does `newPairs := dl.pairs` (sharing the backing storage), mutates
  it in place, and re-assigns the same reference, so the embedding carries
  an explicit `Store` (a heap of map storages indexed by `Nat` references)
  and a `DefaultLog` holds a `pairsRef` into it.
* `fmt.Fprintf` is modelled by `sprintf` below: a model of Go's
  `fmt.Sprintf` restricted to string operands and flagless one-character
  verbs (the fragment the logger exercises): `%s` substitutes the next
  operand, `%%` escapes, a lone trailing `%` renders Go's NOVERB
  diagnostic, a non-`s` verb with a string operand renders Go's
  bad-verb diagnostic, missing operands render MISSING diagnostics and
  left-over operands render the EXTRA suffix.  The bytes written by an
  emission are the function's result (the sink is external, written
  best-effort, and `output` holds its reference as a `Nat`).
* `time.Now()...Format(time.RFC3339)`, the runtime call stack consulted by
  `runtime.Callers`, and the `GOPATH` environment variable are
  nondeterministic inputs of an emission; they are passed explicitly
  (`currentTime`, `stack`, `gopath`).
-/

namespace Lounge

/-- A call-stack frame as produced by the Go runtime: the function name,
source file and line of one caller. -/
structure Frame where
  function : String
  file : String
  line : Nat
deriving DecidableEq, Repr

/-- The contents of one `map[string]string` storage: an association list
with the source's overwrite-on-insert discipline. -/
abbrev PairsMap := List (String × String)

/-- Go map read `m[k]`: value of the first entry with key `k`. -/
def lookupKey : PairsMap → String → Option String
  | [], _ => none
  | (k, v) :: rest, key => if k = key then some v else lookupKey rest key

/-- Go map write `m[k] = v`: overwrite the entry with key `k`, or append a
fresh entry when the key is absent. -/
def mapInsert : PairsMap → String → String → PairsMap
  | [], k, v => [(k, v)]
  | (k0, v0) :: rest, k, v =>
    if k0 = k then (k, v) :: rest else (k0, v0) :: mapInsert rest k v

/-- The loop `for k, v := range pairs { newPairs[k] = v }` of `With`. -/
def mapMerge (m : PairsMap) (pairs : PairsMap) : PairsMap :=
  pairs.foldl (fun acc kv => mapInsert acc kv.1 kv.2) m

/-- The heap of map storages.  A `map` value in Go is a reference to such a
storage; sharing a reference is exactly the aliasing `With` creates. -/
structure Store where
  maps : List PairsMap
deriving DecidableEq

/-- Dereference a map reference. -/
def Store.read (s : Store) (r : Nat) : PairsMap := s.maps.getD r []

/-- Mutate the storage a map reference points to. -/
def Store.write (s : Store) (r : Nat) (m : PairsMap) : Store := ⟨s.maps.set r m⟩

/-- `DefaultLog` of the source: a reference to the `pairs` map storage, the
`enableDebug` flag, and the `output` sink reference. -/
structure DefaultLog where
  pairsRef : Nat
  enableDebug : Bool
  output : Nat
deriving DecidableEq

/-- The sink reference of the default `bufio.NewWriter(os.Stdout)`. -/
def stdoutSink : Nat := 0

/-- The source's `Option` functional-option type (named `Opt` here because
`Option` is taken by Lean's core type). -/
def Opt := DefaultLog → DefaultLog

/-- `WithDebugEnabled` option: sets `enableDebug`. -/
def WithDebugEnabled : Opt := fun l => { l with enableDebug := true }

/-- `WithOutput` option: replaces the `output` sink reference. -/
def WithOutput (w : Nat) : Opt := fun l => { l with output := w }

/-- `NewDefaultLog`: a fresh logger with a newly allocated empty pairs map,
debug disabled and the buffered-stdout sink, then the options applied in
order. -/
def NewDefaultLog (opts : List Opt) (s : Store) : DefaultLog × Store :=
  let dl : DefaultLog :=
    { pairsRef := s.maps.length, enableDebug := false, output := stdoutSink }
  (opts.foldl (fun l o => o l) dl, ⟨s.maps ++ [[]]⟩)

/-- Tail of Go's `%!(EXTRA string=a, string=b)` suffix: the `, string=v`
renderings of the second and later left-over operands. -/
def extraArgsTail : List (List Char) → List Char
  | [] => []
  | a :: rest => (", string=").data ++ a ++ extraArgsTail rest

/-- Go's `%!(EXTRA ...)` suffix for left-over operands (empty when every
operand was consumed). -/
def extraChunk : List (List Char) → List Char
  | [] => []
  | a :: rest => ("%!(EXTRA string=").data ++ a ++ extraArgsTail rest ++ [')']

/-- Character-level model of Go's `fmt.Sprintf` on string operands (see the
module docstring for the covered fragment). -/
def sprintfChars : List Char → List (List Char) → List Char
  | [], as => extraChunk as
  | c :: rest, as =>
    if c = '%' then
      match rest, as with
      | [], as' => ("%!(NOVERB)").data ++ extraChunk as'
      | v :: rest', as' =>
        if v = '%' then '%' :: sprintfChars rest' as'
        else if v = 's' then
          match as' with
          | a :: rest'' => a ++ sprintfChars rest' rest''
          | [] => ("%!s(MISSING)").data ++ sprintfChars rest' []
        else
          match as' with
          | a :: rest'' =>
            '%' :: '!' :: v :: ("(string=").data ++ a ++ ')' :: sprintfChars rest' rest''
          | [] => '%' :: '!' :: v :: ("(MISSING)").data ++ sprintfChars rest' []
    else c :: sprintfChars rest as

/-- String-level wrapper of `sprintfChars`. -/
def sprintf (f : String) (args : List String) : String :=
  ⟨sprintfChars f.data (args.map (fun a => a.data))⟩

/-- `strings.Join` helper: `sep ++ x` for each remaining element. -/
def joinAux (sep : String) : List String → String
  | [] => ""
  | x :: rest => sep ++ x ++ joinAux sep rest

/-- Go's `strings.Join(elems, sep)`. -/
def joinSep (sep : String) : List String → String
  | [] => ""
  | x :: rest => x ++ joinAux sep rest

/-- The `pairs` slice built by `printLevel`: one `fmt.Sprintf("%s=%s", k, v)`
token per map entry (in the embedding's determinized iteration order). -/
def renderPairs (m : PairsMap) : List String :=
  m.map (fun kv => sprintf ("%s=%s") [kv.1, kv.2])

/-- `getFrame(skipFrames)` of the source.  `runtime.Callers(0, pcs)` with
`len(pcs) = targetFrameIndex+2` yields `n = min (stack length) (len pcs)`
frames; the loop selects the frame at `targetFrameIndex` when it exists and
otherwise leaves the placeholder frame `{Function: "unknown"}` (whose
`File` is empty and `Line` zero) in place. -/
def getFrame (skipFrames : Nat) (stack : List Frame) : Frame :=
  let targetFrameIndex := skipFrames + 2
  let n := min stack.length (targetFrameIndex + 2)
  match (stack.take n)[targetFrameIndex]? with
  | some f => f
  | none => { function := "unknown", file := "", line := 0 }

/-- The caller annotation of the debug branch of `printLevel`:
`caller.File + "#" + strconv.Itoa(caller.Line)`, with the `GOPATH/src/`
prefix stripped everywhere when the `GOPATH` environment variable is set. -/
def callerSegment (stack : List Frame) (gopath : Option String) : String :=
  let caller := getFrame 2 stack
  let callerWithLine := caller.file ++ "#" ++ toString caller.line
  match gopath with
  | some gp => callerWithLine.replace (gp ++ "/src/") ""
  | none => callerWithLine

/-- `printLevel` of the source: format the line and write it.  The result
is the text handed to the sink by `fmt.Fprintf`. -/
def printLevel (dl : DefaultLog) (s : Store) (level fmtStr : String)
    (args : List String) (currentTime : String) (stack : List Frame)
    (gopath : Option String) : String :=
  let pairs := renderPairs (s.read dl.pairsRef)
  if dl.enableDebug then
    sprintf (currentTime ++ " |" ++ level ++ "| " ++ callerSegment stack gopath
      ++ " " ++ joinSep (" ") pairs ++ fmtStr ++ "\n") args
  else
    sprintf (currentTime ++ " |" ++ level ++ "| " ++ joinSep (" ") pairs
      ++ fmtStr ++ "\n") args

/-- `Debugf`: gated on `enableDebug`; returns the bytes written (empty when
suppressed: the source returns before any formatting or write). -/
def Debugf (dl : DefaultLog) (s : Store) (fmtStr : String) (args : List String)
    (currentTime : String) (stack : List Frame) (gopath : Option String) : String :=
  if !dl.enableDebug then "" else
    printLevel dl s ("DEBUG") fmtStr args currentTime stack gopath

/-- `Infof`: always emits at level INFO. -/
def Infof (dl : DefaultLog) (s : Store) (fmtStr : String) (args : List String)
    (currentTime : String) (stack : List Frame) (gopath : Option String) : String :=
  printLevel dl s ("INFO") fmtStr args currentTime stack gopath

/-- `Errorf`: always emits at level ERROR. -/
def Errorf (dl : DefaultLog) (s : Store) (fmtStr : String) (args : List String)
    (currentTime : String) (stack : List Frame) (gopath : Option String) : String :=
  printLevel dl s ("ERROR") fmtStr args currentTime stack gopath

/-- `With` of the source: `newPairs := dl.pairs` shares the backing
storage, the range loop mutates that shared storage in place, and the
receiver itself is returned — so the store's cell at `dl.pairsRef` is
overwritten with the merged map and the logger value is unchanged. -/
def With (dl : DefaultLog) (pairs : PairsMap) (s : Store) : DefaultLog × Store :=
  let newPairs := mapMerge (s.read dl.pairsRef) pairs
  (dl, s.write dl.pairsRef newPairs)

/-- A format string is well formed when no `%` is left dangling at the very
end (Go would render NOVERB there). -/
def fmtOk : List Char → Bool
  | [] => true
  | c :: rest =>
    if c = '%' then
      match rest with
      | [] => false
      | _ :: rest' => fmtOk rest'
    else fmtOk rest

/-- Number of operands a format string consumes: one per verb, none for the
`%%` escape. -/
def argsNeeded : List Char → Nat
  | [] => 0
  | c :: rest =>
    if c = '%' then
      match rest with
      | [] => 0
      | v :: rest' => (if v = '%' then 0 else 1) + argsNeeded rest'
    else argsNeeded rest

/-- Number of positions of `hay` at which `needle` occurs (as a contiguous
substring). -/
def countOccur (needle : List Char) : List Char → Nat
  | [] => if needle.isPrefixOf [] then 1 else 0
  | c :: rest => (if needle.isPrefixOf (c :: rest) then 1 else 0) + countOccur needle rest

/-- Total number of occurrences of the three level tags in a line. -/
def levelTagCount (s : String) : Nat :=
  countOccur (("|DEBUG|").data) s.data + countOccur (("|INFO|").data) s.data
    + countOccur (("|ERROR|").data) s.data

/-- The text ends in a newline and the character before it (when any) is
not a newline. -/
def endsWithExactlyOneNewline (s : String) : Bool :=
  match s.data.reverse with
  | [] => false
  | c :: rest =>
    if c = '\n' then
      match rest with
      | [] => true
      | c2 :: _ => c2 != '\n'
    else false

/-- Every character `sprintfChars` can emit beyond the format string and the
operands themselves (the characters of Go's `%!...` diagnostics). -/
def metaChars : List Char := ("%!()NOVERBMISGXTAstring=, ").data

/-- A benign string for line-shape reasoning: free of `%` (so `sprintf`
copies it literally), of `|` (so it cannot fake a level tag) and of
newlines. -/
def cleanStr (s : String) : Prop :=
  '%' ∉ s.data ∧ '|' ∉ s.data ∧ '\n' ∉ s.data

instance (s : String) : Decidable (cleanStr s) := by
  unfold cleanStr; infer_instance

theorem getD_set_lt (l : List PairsMap) (r : Nat) (m : PairsMap) (h : r < l.length) :
    (l.set r m).getD r [] = m := by
  induction l generalizing r with
  | nil => simp at h
  | cons a t ih =>
    cases r with
    | zero => simp
    | succ r' => simpa using ih r' (by simpa using h)

theorem getD_set_self (l : List PairsMap) (r : Nat) :
    (l.set r (l.getD r [])).getD r [] = l.getD r [] := by
  by_cases h : r < l.length
  · exact getD_set_lt l r _ h
  · rw [List.set_eq_of_length_le (by omega)]

theorem read_write_lt (s : Store) (r : Nat) (m : PairsMap) (h : r < s.maps.length) :
    (s.write r m).read r = m :=
  getD_set_lt s.maps r m h

theorem read_write_self (s : Store) (r : Nat) :
    (s.write r (s.read r)).read r = s.read r :=
  getD_set_self s.maps r

theorem printLevel_store_congr (dl : DefaultLog) (s₁ s₂ : Store) (lvl fmtStr : String)
    (args : List String) (t : String) (stack : List Frame) (gp : Option String)
    (h : s₁.read dl.pairsRef = s₂.read dl.pairsRef) :
    printLevel dl s₁ lvl fmtStr args t stack gp = printLevel dl s₂ lvl fmtStr args t stack gp := by
  simp only [printLevel, h]

theorem lookupKey_eq_none (m : PairsMap) (k : String) (h : k ∉ m.map Prod.fst) :
    lookupKey m k = none := by
  induction m with
  | nil => rfl
  | cons kv t ih =>
    obtain ⟨k0, v0⟩ := kv
    rw [List.map_cons, List.mem_cons] at h
    push_neg at h
    have h0 : ¬ (k0 = k) := fun he => h.1 he.symm
    simp [lookupKey, h0, ih h.2]

theorem lookupKey_mapInsert (m : PairsMap) (k v key : String) :
    lookupKey (mapInsert m k v) key = if k = key then some v else lookupKey m key := by
  induction m with
  | nil => simp [mapInsert, lookupKey]
  | cons kv0 t ih =>
    obtain ⟨k0, v0⟩ := kv0
    by_cases h0 : k0 = k
    · subst h0
      by_cases hk : k0 = key
      · subst hk
        simp [mapInsert, lookupKey]
      · simp [mapInsert, lookupKey, hk]
    · by_cases h0k : k0 = key
      · subst h0k
        have hk : ¬ (k = k0) := fun h' => h0 h'.symm
        simp [mapInsert, lookupKey, h0, hk]
      · simp [mapInsert, lookupKey, h0, h0k, ih]

theorem lookupKey_mapMerge (P m : PairsMap) (k : String)
    (h : (P.map Prod.fst).Nodup) :
    lookupKey (mapMerge m P) k = (lookupKey P k).or (lookupKey m k) := by
  induction P generalizing m with
  | nil => simp [mapMerge, lookupKey, Option.or]
  | cons kv rest ih =>
    obtain ⟨k0, v0⟩ := kv
    have hnd : (rest.map Prod.fst).Nodup := (List.nodup_cons.mp (by simpa using h)).2
    have hk0 : k0 ∉ rest.map Prod.fst := (List.nodup_cons.mp (by simpa using h)).1
    have hm : mapMerge m ((k0, v0) :: rest) = mapMerge (mapInsert m k0 v0) rest := rfl
    rw [hm, ih _ hnd]
    by_cases hk : k0 = k
    · subst hk
      rw [lookupKey_eq_none rest k0 hk0]
      simp [lookupKey, lookupKey_mapInsert, Option.or]
    · cases hrest : lookupKey rest k with
      | some v => simp [lookupKey, hk, hrest, Option.or]
      | none => simp [lookupKey, hk, hrest, lookupKey_mapInsert, Option.or]

theorem lookupKey_some_mem (m : PairsMap) (k v : String) (h : lookupKey m k = some v) :
    (k, v) ∈ m := by
  induction m with
  | nil => simp [lookupKey] at h
  | cons kv t ih =>
    obtain ⟨k0, v0⟩ := kv
    by_cases h0 : k0 = k
    · subst h0
      simp [lookupKey] at h
      subst h
      exact List.mem_cons_self _ _
    · simp [lookupKey, h0] at h
      exact List.mem_cons_of_mem _ (ih h)

theorem pairTokenChars (k v : List Char) :
    sprintfChars (("%s=%s").data) [k, v] = k ++ '=' :: v := by
  show sprintfChars ['%', 's', '=', '%', 's'] [k, v] = k ++ '=' :: v
  simp [sprintfChars, extraChunk]

theorem pairToken (k v : String) :
    sprintf ("%s=%s") [k, v] = k ++ ("=") ++ v := by
  apply String.ext
  show sprintfChars (("%s=%s").data) [k.data, v.data] = (k ++ ("=") ++ v).data
  rw [pairTokenChars]
  simp [String.data_append]

theorem renderPairs_token (m : PairsMap) (k v : String) (h : (k, v) ∈ m) :
    (k ++ ("=") ++ v) ∈ renderPairs m := by
  unfold renderPairs
  apply List.mem_map.mpr
  exact ⟨(k, v), h, (pairToken k v).symm ▸ rfl⟩

/-- Claim C4: with debug disabled, `Debugf` returns before any formatting
or write: the bytes handed to the sink are empty, so the sink is
unchanged. -/
theorem c4_debugf_suppressed (dl : DefaultLog) (s : Store) (fmtStr : String)
    (args : List String) (t : String) (stack : List Frame) (gp : Option String)
    (h : dl.enableDebug = false) :
    Debugf dl s fmtStr args t stack gp = ("") := by
  simp [Debugf, h]

theorem c4_debugf_suppressed_witness :
    Debugf ⟨0, false, 0⟩ ⟨[[]]⟩ ("x %s") ["y"] ("t") [] none = ("") :=
  c4_debugf_suppressed ⟨0, false, 0⟩ ⟨[[]]⟩ ("x %s") ["y"] ("t") [] none rfl

/-- Claim C8: `With` returns a logger whose `enableDebug` flag and `output`
sink are those of its receiver, and the emitters (`Debugf`, `Infof`,
`Errorf`) never assign any logger field in the source, which the embedding
reflects by their returning only the written text — so along any lineage
only the pairs map evolves. -/
theorem c8_config_immutable (dl : DefaultLog) (pairs : PairsMap) (s : Store) :
    (With dl pairs s).1.enableDebug = dl.enableDebug
    ∧ (With dl pairs s).1.output = dl.output
    ∧ (With dl pairs s).1 = dl :=
  ⟨rfl, rfl, rfl⟩

/-- Claim C10: `With` with the empty mapping leaves the effective context
unchanged and every subsequent emission (same timestamp, stack, GOPATH,
format and arguments) identical, through either the returned or the
original logger. -/
theorem c10_with_empty_identity (dl : DefaultLog) (s : Store) (fmtStr : String)
    (args : List String) (t : String) (stack : List Frame) (gp : Option String) :
    (With dl [] s).1 = dl
    ∧ (With dl [] s).2.read (With dl [] s).1.pairsRef = s.read dl.pairsRef
    ∧ Debugf (With dl [] s).1 (With dl [] s).2 fmtStr args t stack gp
        = Debugf dl s fmtStr args t stack gp
    ∧ Infof (With dl [] s).1 (With dl [] s).2 fmtStr args t stack gp
        = Infof dl s fmtStr args t stack gp
    ∧ Errorf (With dl [] s).1 (With dl [] s).2 fmtStr args t stack gp
        = Errorf dl s fmtStr args t stack gp := by
  have h2 : (With dl [] s).2.read dl.pairsRef = s.read dl.pairsRef := by
    show (s.write dl.pairsRef (mapMerge (s.read dl.pairsRef) [])).read dl.pairsRef = _
    have hm : mapMerge (s.read dl.pairsRef) [] = s.read dl.pairsRef := rfl
    rw [hm]
    exact read_write_self s dl.pairsRef
  refine ⟨rfl, h2, ?_, ?_, ?_⟩
  · show (if !dl.enableDebug then ("")
        else printLevel dl (With dl [] s).2 ("DEBUG") fmtStr args t stack gp)
      = Debugf dl s fmtStr args t stack gp
    rw [printLevel_store_congr dl _ s ("DEBUG") fmtStr args t stack gp h2]
    rfl
  · exact printLevel_store_congr dl _ s ("INFO") fmtStr args t stack gp h2
  · exact printLevel_store_congr dl _ s ("ERROR") fmtStr args t stack gp h2

theorem sprintfChars_nil (as : List (List Char)) :
    sprintfChars [] as = extraChunk as := rfl

theorem sprintfChars_noverb (as : List (List Char)) :
    sprintfChars ['%'] as = ("%!(NOVERB)").data ++ extraChunk as := rfl

theorem sprintfChars_pctpct (rest : List Char) (as : List (List Char)) :
    sprintfChars ('%' :: '%' :: rest) as = '%' :: sprintfChars rest as := rfl

theorem sprintfChars_s_cons (rest : List Char) (a : List Char) (as : List (List Char)) :
    sprintfChars ('%' :: 's' :: rest) (a :: as) = a ++ sprintfChars rest as := rfl

theorem sprintfChars_s_nil (rest : List Char) :
    sprintfChars ('%' :: 's' :: rest) [] = ("%!s(MISSING)").data ++ sprintfChars rest [] := rfl

theorem sprintfChars_verb_cons (v : Char) (rest : List Char) (a : List Char)
    (as : List (List Char)) (hv : ¬ (v = '%')) (hvs : ¬ (v = 's')) :
    sprintfChars ('%' :: v :: rest) (a :: as)
      = '%' :: '!' :: v :: ("(string=").data ++ a ++ ')' :: sprintfChars rest as := by
  simp [sprintfChars, hv, hvs]

theorem sprintfChars_verb_nil (v : Char) (rest : List Char)
    (hv : ¬ (v = '%')) (hvs : ¬ (v = 's')) :
    sprintfChars ('%' :: v :: rest) []
      = '%' :: '!' :: v :: ("(MISSING)").data ++ sprintfChars rest [] := by
  simp [sprintfChars, hv, hvs]

theorem sprintfChars_cons (c : Char) (rest : List Char) (as : List (List Char))
    (hc : ¬ (c = '%')) :
    sprintfChars (c :: rest) as = c :: sprintfChars rest as := by
  cases rest with
  | nil => simp [sprintfChars, hc]
  | cons v rest' => simp [sprintfChars, hc]

theorem fmtOk_cons (c : Char) (rest : List Char) (hc : ¬ (c = '%')) :
    fmtOk (c :: rest) = fmtOk rest := by
  cases rest with
  | nil => simp [fmtOk, hc]
  | cons v rest' => simp [fmtOk, hc]

theorem argsNeeded_cons (c : Char) (rest : List Char) (hc : ¬ (c = '%')) :
    argsNeeded (c :: rest) = argsNeeded rest := by
  cases rest with
  | nil => simp [argsNeeded, hc]
  | cons v rest' => simp [argsNeeded, hc]

theorem fmtOk_of_no_pct (f : List Char) (h : '%' ∉ f) : fmtOk f = true := by
  induction f with
  | nil => rfl
  | cons c rest ih =>
    have hc : ¬ (c = '%') := fun he => h (by simp [he])
    have hr : '%' ∉ rest := fun hm => h (List.mem_cons_of_mem _ hm)
    rw [fmtOk_cons c rest hc, ih hr]

theorem argsNeeded_of_no_pct (f : List Char) (h : '%' ∉ f) : argsNeeded f = 0 := by
  induction f with
  | nil => rfl
  | cons c rest ih =>
    have hc : ¬ (c = '%') := fun he => h (by simp [he])
    have hr : '%' ∉ rest := fun hm => h (List.mem_cons_of_mem _ hm)
    rw [argsNeeded_cons c rest hc, ih hr]

theorem sprintfChars_no_pct (f : List Char) (h : '%' ∉ f) : sprintfChars f [] = f := by
  induction f with
  | nil => rfl
  | cons c rest ih =>
    have hc : ¬ (c = '%') := fun he => h (by simp [he])
    have hr : '%' ∉ rest := fun hm => h (List.mem_cons_of_mem _ hm)
    rw [sprintfChars_cons c rest [] hc, ih hr]

theorem sprintfChars_split : ∀ (n : Nat) (f : List Char), f.length ≤ n →
    ∀ (g : List Char) (as bs : List (List Char)),
    fmtOk f = true → argsNeeded f = as.length →
    sprintfChars (f ++ g) (as ++ bs) = sprintfChars f as ++ sprintfChars g bs := by
  intro n
  induction n with
  | zero =>
    intro f hf g as bs hok hn
    have hf0 : f = [] := List.eq_nil_of_length_eq_zero (Nat.le_zero.mp hf)
    subst hf0
    have has : as = [] := List.eq_nil_of_length_eq_zero (by simpa [argsNeeded] using hn.symm)
    subst has
    simp [sprintfChars_nil, extraChunk]
  | succ n ih =>
    intro f hf g as bs hok hn
    cases f with
    | nil =>
      have has : as = [] := List.eq_nil_of_length_eq_zero (by simpa [argsNeeded] using hn.symm)
      subst has
      simp [sprintfChars_nil, extraChunk]
    | cons c rest =>
      by_cases hc : c = '%'
      · subst hc
        cases rest with
        | nil => simp [fmtOk] at hok
        | cons v rest' =>
          have hlen : rest'.length ≤ n := by
            simp [List.length_cons] at hf; omega
          by_cases hv : v = '%'
          · subst hv
            have hok' : fmtOk rest' = true := by simpa [fmtOk] using hok
            have hn' : argsNeeded rest' = as.length := by simpa [argsNeeded] using hn
            have hrec := ih rest' hlen g as bs hok' hn'
            simp only [List.cons_append, sprintfChars_pctpct, hrec]
          · by_cases hvs : v = 's'
            · subst hvs
              have hok' : fmtOk rest' = true := by simpa [fmtOk] using hok
              cases as with
              | nil =>
                simp [argsNeeded] at hn
              | cons a as' =>
                have hn' : argsNeeded rest' = as'.length := by
                  simp [argsNeeded] at hn
                  omega
                have hrec := ih rest' hlen g as' bs hok' hn'
                simp only [List.cons_append, sprintfChars_s_cons, hrec, List.append_assoc]
            · have hok' : fmtOk rest' = true := by simpa [fmtOk] using hok
              cases as with
              | nil =>
                simp [argsNeeded, hv] at hn
              | cons a as' =>
                have hn' : argsNeeded rest' = as'.length := by
                  simp [argsNeeded, hv] at hn
                  omega
                have hrec := ih rest' hlen g as' bs hok' hn'
                simp only [List.cons_append]
                rw [sprintfChars_verb_cons v (rest' ++ g) a (as' ++ bs) hv hvs,
                  sprintfChars_verb_cons v rest' a as' hv hvs, hrec]
                simp [List.append_assoc]
      · have hok' : fmtOk rest = true := by rw [fmtOk_cons c rest hc] at hok; exact hok
        have hn' : argsNeeded rest = as.length := by
          rw [argsNeeded_cons c rest hc] at hn; exact hn
        have hlen : rest.length ≤ n := by simp [List.length_cons] at hf; omega
        have hrec := ih rest hlen g as bs hok' hn'
        rw [List.cons_append, sprintfChars_cons c (rest ++ g) (as ++ bs) hc,
          sprintfChars_cons c rest as hc, hrec, List.cons_append]

theorem subset_meta_noverb : ("%!(NOVERB)").data ⊆ metaChars := by decide

theorem subset_meta_missing_s : ("%!s(MISSING)").data ⊆ metaChars := by decide

theorem subset_meta_missing : ("(MISSING)").data ⊆ metaChars := by decide

theorem subset_meta_string : ("(string=").data ⊆ metaChars := by decide

theorem subset_meta_comma : (", string=").data ⊆ metaChars := by decide

theorem subset_meta_extra : ("%!(EXTRA string=").data ⊆ metaChars := by decide

theorem mem_extraArgsTail : ∀ (as : List (List Char)) (x : Char), x ∈ extraArgsTail as →
    (∃ a ∈ as, x ∈ a) ∨ x ∈ metaChars := by
  intro as
  induction as with
  | nil => intro x h; simp [extraArgsTail] at h
  | cons a rest ih =>
    intro x h
    simp only [extraArgsTail] at h
    rcases List.mem_append.mp h with h1 | h2
    · rcases List.mem_append.mp h1 with h3 | h4
      · exact Or.inr (subset_meta_comma h3)
      · exact Or.inl ⟨a, List.mem_cons_self _ _, h4⟩
    · rcases ih x h2 with ⟨b, hb, hxb⟩ | hm
      · exact Or.inl ⟨b, List.mem_cons_of_mem _ hb, hxb⟩
      · exact Or.inr hm

theorem mem_extraChunk : ∀ (as : List (List Char)) (x : Char), x ∈ extraChunk as →
    (∃ a ∈ as, x ∈ a) ∨ x ∈ metaChars := by
  intro as x h
  cases as with
  | nil => simp [extraChunk] at h
  | cons a rest =>
    simp only [extraChunk] at h
    rcases List.mem_append.mp h with h1 | h2
    · rcases List.mem_append.mp h1 with h3 | h4
      · rcases List.mem_append.mp h3 with h5 | h6
        · exact Or.inr (subset_meta_extra h5)
        · exact Or.inl ⟨a, List.mem_cons_self _ _, h6⟩
      · rcases mem_extraArgsTail rest x h4 with ⟨b, hb, hxb⟩ | hm
        · exact Or.inl ⟨b, List.mem_cons_of_mem _ hb, hxb⟩
        · exact Or.inr hm
    · have hx : x = ')' := by simpa using h2
      subst hx
      exact Or.inr (by decide)

theorem mem_sprintfChars : ∀ (n : Nat) (f : List Char), f.length ≤ n →
    ∀ (as : List (List Char)) (x : Char), x ∈ sprintfChars f as →
    x ∈ f ∨ (∃ a ∈ as, x ∈ a) ∨ x ∈ metaChars := by
  intro n
  induction n with
  | zero =>
    intro f hf as x h
    have hf0 : f = [] := List.eq_nil_of_length_eq_zero (Nat.le_zero.mp hf)
    subst hf0
    rw [sprintfChars_nil] at h
    exact Or.inr (mem_extraChunk as x h)
  | succ n ih =>
    intro f hf as x h
    cases f with
    | nil =>
      rw [sprintfChars_nil] at h
      exact Or.inr (mem_extraChunk as x h)
    | cons c rest =>
      by_cases hc : c = '%'
      · subst hc
        cases rest with
        | nil =>
          rw [sprintfChars_noverb] at h
          rcases List.mem_append.mp h with h1 | h2
          · exact Or.inr (Or.inr (subset_meta_noverb h1))
          · exact Or.inr (mem_extraChunk as x h2)
        | cons v rest' =>
          have hlen : rest'.length ≤ n := by
            simp [List.length_cons] at hf; omega
          by_cases hv : v = '%'
          · subst hv
            rw [sprintfChars_pctpct] at h
            rcases List.mem_cons.mp h with h1 | h2
            · subst h1; exact Or.inl (by simp)
            · rcases ih rest' hlen as x h2 with h3 | h4
              · exact Or.inl (by simp [h3])
              · exact Or.inr h4
          · by_cases hvs : v = 's'
            · subst hvs
              cases as with
              | nil =>
                rw [sprintfChars_s_nil] at h
                rcases List.mem_append.mp h with h1 | h2
                · exact Or.inr (Or.inr (subset_meta_missing_s h1))
                · rcases ih rest' hlen [] x h2 with h3 | h4
                  · exact Or.inl (by simp [h3])
                  · rcases h4 with ⟨a, ha, _⟩ | hm
                    · simp at ha
                    · exact Or.inr (Or.inr hm)
              | cons a as' =>
                rw [sprintfChars_s_cons] at h
                rcases List.mem_append.mp h with h1 | h2
                · exact Or.inr (Or.inl ⟨a, List.mem_cons_self _ _, h1⟩)
                · rcases ih rest' hlen as' x h2 with h3 | h4
                  · exact Or.inl (by simp [h3])
                  · rcases h4 with ⟨b, hb, hxb⟩ | hm
                    · exact Or.inr (Or.inl ⟨b, List.mem_cons_of_mem _ hb, hxb⟩)
                    · exact Or.inr (Or.inr hm)
            · cases as with
              | nil =>
                rw [sprintfChars_verb_nil v rest' hv hvs] at h
                rcases List.mem_cons.mp h with h1 | h
                · subst h1; exact Or.inr (Or.inr (by decide))
                rcases List.mem_cons.mp h with h1 | h
                · subst h1; exact Or.inr (Or.inr (by decide))
                rcases List.mem_cons.mp h with h1 | h
                · subst h1; exact Or.inl (by simp)
                rcases List.mem_append.mp h with h1 | h2
                · exact Or.inr (Or.inr (subset_meta_missing h1))
                · rcases ih rest' hlen [] x h2 with h3 | h4
                  · exact Or.inl (by simp [h3])
                  · rcases h4 with ⟨a, ha, _⟩ | hm
                    · simp at ha
                    · exact Or.inr (Or.inr hm)
              | cons a as' =>
                rw [sprintfChars_verb_cons v rest' a as' hv hvs] at h
                rcases List.mem_cons.mp h with h1 | h
                · subst h1; exact Or.inr (Or.inr (by decide))
                rcases List.mem_cons.mp h with h1 | h
                · subst h1; exact Or.inr (Or.inr (by decide))
                rcases List.mem_cons.mp h with h1 | h
                · subst h1; exact Or.inl (by simp)
                rcases List.mem_append.mp h with h1 | h2
                · rcases List.mem_append.mp h1 with h3 | h4
                  · exact Or.inr (Or.inr (subset_meta_string h3))
                  · exact Or.inr (Or.inl ⟨a, List.mem_cons_self _ _, h4⟩)
                rcases List.mem_cons.mp h2 with h1 | h5
                · subst h1; exact Or.inr (Or.inr (by decide))
                · rcases ih rest' hlen as' x h5 with h3 | h4
                  · exact Or.inl (by simp [h3])
                  · rcases h4 with ⟨b, hb, hxb⟩ | hm
                    · exact Or.inr (Or.inl ⟨b, List.mem_cons_of_mem _ hb, hxb⟩)
                    · exact Or.inr (Or.inr hm)
      · rw [sprintfChars_cons c rest as hc] at h
        have hlen : rest.length ≤ n := by simp [List.length_cons] at hf; omega
        rcases List.mem_cons.mp h with h1 | h2
        · subst h1; exact Or.inl (by simp)
        · rcases ih rest hlen as x h2 with h3 | h4
          · exact Or.inl (by simp [h3])
          · exact Or.inr h4

theorem not_mem_sprintfChars (f : List Char) (as : List (List Char)) (x : Char)
    (hx : x ∉ metaChars) (hf : x ∉ f) (has : ∀ a ∈ as, x ∉ a) :
    x ∉ sprintfChars f as := by
  intro h
  rcases mem_sprintfChars f.length f le_rfl as x h with h1 | ⟨a, ha, hxa⟩ | h3
  · exact hf h1
  · exact has a ha hxa
  · exact hx h3

theorem sprintf_line_data (pre fmtStr : String) (args : List String)
    (hpre : '%' ∉ pre.data) (hok : fmtOk fmtStr.data = true)
    (hn : argsNeeded fmtStr.data = args.length) :
    (sprintf (pre ++ fmtStr ++ ("\n")) args).data
      = pre.data ++ (sprintfChars fmtStr.data (args.map (fun a => a.data)) ++ ['\n']) := by
  have h1 := sprintfChars_split pre.data.length pre.data le_rfl
      (fmtStr.data ++ ['\n']) [] (args.map (fun a => a.data))
      (fmtOk_of_no_pct _ hpre) (by rw [argsNeeded_of_no_pct _ hpre]; rfl)
  have h2 := sprintfChars_split fmtStr.data.length fmtStr.data le_rfl
      ['\n'] (args.map (fun a => a.data)) [] hok (by simpa using hn)
  rw [List.append_nil] at h2
  have h3 : sprintfChars ['\n'] [] = ['\n'] := rfl
  rw [h3] at h2
  show sprintfChars ((pre ++ fmtStr ++ ("\n")).data) (args.map (fun a => a.data)) = _
  have hd : (pre ++ fmtStr ++ ("\n")).data = pre.data ++ (fmtStr.data ++ ['\n']) := by
    rw [String.data_append, String.data_append, List.append_assoc]
  rw [hd]
  have h1' : sprintfChars (pre.data ++ (fmtStr.data ++ ['\n'])) (args.map (fun a => a.data))
      = sprintfChars pre.data [] ++ sprintfChars (fmtStr.data ++ ['\n'])
          (args.map (fun a => a.data)) := h1
  rw [h1', sprintfChars_no_pct _ hpre, h2]

theorem not_mem_data_append (x : Char) (a b : String) (ha : x ∉ a.data) (hb : x ∉ b.data) :
    x ∉ (a ++ b).data := by
  rw [String.data_append]
  intro h
  rcases List.mem_append.mp h with h1 | h2
  · exact ha h1
  · exact hb h2

theorem mem_joinAux_chars : ∀ (l : List String) (x : Char), x ∈ (joinAux (" ") l).data →
    x = ' ' ∨ ∃ y ∈ l, x ∈ y.data := by
  intro l
  induction l with
  | nil => intro x h; simp [joinAux] at h
  | cons y rest ih =>
    intro x h
    simp only [joinAux] at h
    rw [String.data_append, String.data_append] at h
    rcases List.mem_append.mp h with h1 | h2
    · rcases List.mem_append.mp h1 with h3 | h4
      · left; simpa using h3
      · right; exact ⟨y, List.mem_cons_self _ _, h4⟩
    · rcases ih x h2 with h3 | ⟨z, hz, hxz⟩
      · left; exact h3
      · right; exact ⟨z, List.mem_cons_of_mem _ hz, hxz⟩

theorem mem_joinSep_chars (l : List String) (x : Char) (h : x ∈ (joinSep (" ") l).data) :
    x = ' ' ∨ ∃ y ∈ l, x ∈ y.data := by
  cases l with
  | nil => simp [joinSep] at h
  | cons y rest =>
    simp only [joinSep] at h
    rw [String.data_append] at h
    rcases List.mem_append.mp h with h1 | h2
    · right; exact ⟨y, List.mem_cons_self _ _, h1⟩
    · rcases mem_joinAux_chars rest x h2 with h3 | ⟨z, hz, hxz⟩
      · left; exact h3
      · right; exact ⟨z, List.mem_cons_of_mem _ hz, hxz⟩

theorem not_mem_renderPairs (m : PairsMap) (x : Char) (hx : ¬ (x = '='))
    (h : ∀ kv ∈ m, x ∉ kv.1.data ∧ x ∉ kv.2.data) :
    ∀ tok ∈ renderPairs m, x ∉ tok.data := by
  intro tok htok
  rcases List.mem_map.mp htok with ⟨kv, hkv, htk⟩
  subst htk
  rw [pairToken kv.1 kv.2, String.data_append, String.data_append]
  intro hmem
  rcases List.mem_append.mp hmem with h1 | h2
  · rcases List.mem_append.mp h1 with h3 | h4
    · exact (h kv hkv).1 h3
    · exact hx (by simpa using h4)
  · exact (h kv hkv).2 h2

theorem not_mem_joinSep (l : List String) (x : Char) (hs : ¬ (x = ' '))
    (h : ∀ y ∈ l, x ∉ y.data) : x ∉ (joinSep (" ") l).data := by
  intro hmem
  rcases mem_joinSep_chars l x hmem with h1 | ⟨y, hy, hxy⟩
  · exact hs h1
  · exact h y hy hxy

theorem infix_joinAux (l : List String) (x : String) (h : x ∈ l) :
    x.data <:+: (joinAux (" ") l).data := by
  induction l with
  | nil => simp at h
  | cons y rest ih =>
    rcases List.mem_cons.mp h with h1 | h2
    · subst h1
      simp only [joinAux]
      rw [String.data_append, String.data_append]
      exact List.infix_append _ _ _
    · simp only [joinAux]
      rw [String.data_append, String.data_append]
      exact (ih h2).trans (List.suffix_append _ _).isInfix

theorem infix_joinSep (l : List String) (x : String) (h : x ∈ l) :
    x.data <:+: (joinSep (" ") l).data := by
  cases l with
  | nil => simp at h
  | cons y rest =>
    rcases List.mem_cons.mp h with h1 | h2
    · subst h1
      simp only [joinSep]
      rw [String.data_append]
      exact (List.prefix_append _ _).isInfix
    · simp only [joinSep]
      rw [String.data_append]
      exact (infix_joinAux rest x h2).trans (List.suffix_append _ _).isInfix

theorem countOccur_nil_of_not_mem (needle hay : List Char) (x : Char)
    (hx : x ∈ needle) (hh : x ∉ hay) : countOccur needle hay = 0 := by
  induction hay with
  | nil =>
    cases needle with
    | nil => simp at hx
    | cons a t => simp [countOccur, List.isPrefixOf]
  | cons c rest ih =>
    have hr : x ∉ rest := fun hm => hh (List.mem_cons_of_mem _ hm)
    have hp : ¬ (needle.isPrefixOf (c :: rest) = true) := by
      intro hpre
      exact hh ((List.isPrefixOf_iff_prefix.mp hpre).subset hx)
    simp [countOccur, hp, ih hr]

theorem tagPrefix_iff : ∀ (X L B : List Char), '|' ∉ X → '|' ∉ L →
    ((X ++ ['|']) <+: (L ++ '|' :: B) ↔ X = L) := by
  intro X
  induction X with
  | nil =>
    intro L B hX hL
    cases L with
    | nil => simp
    | cons l L' =>
      have hl : ¬ (('|' : Char) = l) := fun he => hL (by rw [← he]; exact List.mem_cons_self _ _)
      simp [List.cons_append, List.cons_prefix_cons, hl]
  | cons x X' ih =>
    intro L B hX hL
    have hx : ¬ (x = '|') := fun he => hX (by simp [he])
    have hX' : '|' ∉ X' := fun hm => hX (List.mem_cons_of_mem _ hm)
    cases L with
    | nil => simp [List.cons_append, List.cons_prefix_cons, hx]
    | cons l L' =>
      have hL' : '|' ∉ L' := fun hm => hL (List.mem_cons_of_mem _ hm)
      simp [List.cons_append, List.cons_prefix_cons, ih L' B hX' hL']

theorem countOccur_tag_tail : ∀ (L B X : List Char), '|' ∉ X → '|' ∉ L → '|' ∉ B →
    countOccur ('|' :: (X ++ ['|'])) (L ++ '|' :: B) = 0 := by
  intro L
  induction L with
  | nil =>
    intro B X hX hL hB
    have h0 : countOccur ('|' :: (X ++ ['|'])) B = 0 :=
      countOccur_nil_of_not_mem _ B '|' (List.mem_cons_self _ _) hB
    have hp : ¬ (('|' :: (X ++ ['|'])).isPrefixOf ('|' :: B) = true) := by
      rw [List.isPrefixOf_iff_prefix, List.cons_prefix_cons]
      intro h
      exact hB (h.2.subset (by simp))
    simp [countOccur, hp, h0]
  | cons l L' ih =>
    intro B X hX hL hB
    have hl : ¬ ('|' = l) := fun he => hL (by rw [← he]; exact List.mem_cons_self _ _)
    have hL' : '|' ∉ L' := fun hm => hL (List.mem_cons_of_mem _ hm)
    have hp : ¬ (('|' :: (X ++ ['|'])).isPrefixOf (l :: (L' ++ '|' :: B)) = true) := by
      rw [List.isPrefixOf_iff_prefix, List.cons_prefix_cons]
      intro h
      exact hl h.1
    rw [List.cons_append]
    simp [countOccur, hp, ih B X hX hL' hB]

theorem countOccur_tag : ∀ (A X L B : List Char),
    '|' ∉ A → '|' ∉ X → '|' ∉ L → '|' ∉ B →
    countOccur ('|' :: (X ++ ['|'])) (A ++ '|' :: (L ++ '|' :: B))
      = if X = L then 1 else 0 := by
  intro A
  induction A with
  | nil =>
    intro X L B hA hX hL hB
    have htail := countOccur_tag_tail L B X hX hL hB
    have hp : (('|' :: (X ++ ['|'])).isPrefixOf ('|' :: (L ++ '|' :: B)) = true) ↔ X = L := by
      rw [List.isPrefixOf_iff_prefix, List.cons_prefix_cons]
      simp [tagPrefix_iff X L B hX hL]
    by_cases hXL : X = L
    · subst hXL
      simp [countOccur, hp.mpr rfl, htail]
    · have hnp : ¬ (('|' :: (X ++ ['|'])).isPrefixOf ('|' :: (L ++ '|' :: B)) = true) :=
        fun h => hXL (hp.mp h)
      simp [countOccur, hnp, htail, hXL]
  | cons a A' ih =>
    intro X L B hA hX hL hB
    have ha : ¬ ('|' = a) := fun he => hA (by rw [← he]; exact List.mem_cons_self _ _)
    have hA' : '|' ∉ A' := fun hm => hA (List.mem_cons_of_mem _ hm)
    have hp : ¬ (('|' :: (X ++ ['|'])).isPrefixOf
        (a :: (A' ++ '|' :: (L ++ '|' :: B))) = true) := by
      rw [List.isPrefixOf_iff_prefix, List.cons_prefix_cons]
      intro h
      exact ha h.1
    rw [List.cons_append]
    simp [countOccur, hp, ih X L B hA' hX hL hB]

theorem endsWithExactlyOneNewline_of (s : String) (front : List Char)
    (hs : s.data = front ++ ['\n']) (hf : '\n' ∉ front) :
    endsWithExactlyOneNewline s = true := by
  unfold endsWithExactlyOneNewline
  rw [hs, List.reverse_append]
  simp only [List.reverse_singleton, List.singleton_append]
  cases hfr : front.reverse with
  | nil => simp
  | cons c2 t =>
    have hc2 : c2 ∈ front := by
      have hm : c2 ∈ front.reverse := by rw [hfr]; exact List.mem_cons_self _ _
      simpa using hm
    have hne : ¬ (c2 = '\n') := fun he => hf (he ▸ hc2)
    simp [hne]

/-- Claim C1, counterexample: a logger constructed with debug enabled and
an empty context, calling `Infof("hello %s", "world")` from a user call
site `/app/main.go:42`, emits a line that carries the caller segment
`/app/main.go#42` — `printLevel` keys caller enrichment on `enableDebug`,
not on the level — so the emitted line is not of the claimed form
`<timestamp> |INFO| hello world\n`. -/
theorem c1_counterexample :
    Infof (NewDefaultLog [WithDebugEnabled] ⟨[]⟩).1 (NewDefaultLog [WithDebugEnabled] ⟨[]⟩).2
        ("hello %s") ["world"] ("2024-01-15T10:30:00Z")
        [⟨("runtime.Callers"), ("callers.go"), 1⟩, ⟨("lounge.getFrame"), ("lounge.go"), 136⟩,
         ⟨("lounge.printLevel"), ("lounge.go"), 114⟩, ⟨("lounge.Infof"), ("lounge.go"), 98⟩,
         ⟨("main.main"), ("/app/main.go"), 42⟩] none
      = ("2024-01-15T10:30:00Z |INFO| /app/main.go#42 hello world\n")
    ∧ ("2024-01-15T10:30:00Z |INFO| /app/main.go#42 hello world\n")
        ≠ ("2024-01-15T10:30:00Z |INFO| hello world\n") := by
  constructor
  · decide
  · decide

/-- Claim C2 (code bug), witnessed: derive `d1 := base.With({"a": "1"})` and
`d2 := base.With({"b": "2"})` from the same base logger.  `With` shares the
backing map storage, so both derived loggers are the same instance over the
union map, and a line emitted through the first derivation carries the
second derivation's key `b=2` (and vice versa `a=1`). -/
theorem c2_aliasing_leak :
    (With (NewDefaultLog [] ⟨[]⟩).1 [(("a"), ("1"))] (NewDefaultLog [] ⟨[]⟩).2).1
      = (With (NewDefaultLog [] ⟨[]⟩).1 [(("b"), ("2"))]
          (With (NewDefaultLog [] ⟨[]⟩).1 [(("a"), ("1"))] (NewDefaultLog [] ⟨[]⟩).2).2).1
    ∧ Infof (With (NewDefaultLog [] ⟨[]⟩).1 [(("a"), ("1"))] (NewDefaultLog [] ⟨[]⟩).2).1
        (With (NewDefaultLog [] ⟨[]⟩).1 [(("b"), ("2"))]
          (With (NewDefaultLog [] ⟨[]⟩).1 [(("a"), ("1"))] (NewDefaultLog [] ⟨[]⟩).2).2).2
        ("m") [] ("2024-01-15T10:30:00Z") [] none
      = ("2024-01-15T10:30:00Z |INFO| a=1 b=2m\n")
    ∧ (("b=2").data <:+: ("2024-01-15T10:30:00Z |INFO| a=1 b=2m\n").data) := by
  refine ⟨?_, ?_, ?_⟩
  · decide
  · decide
  · decide

/-- Claim C3, counterexample: after `With({"env": "test"})`, `Errorf("boom")`
emits `<timestamp> |ERROR| env=testboom\n` — the source concatenates the
joined pairs and the message with no separator, so there is no space
between `env=test` and `boom`, contrary to the claimed line. -/
theorem c3_counterexample :
    Errorf (With (NewDefaultLog [] ⟨[]⟩).1 [(("env"), ("test"))] (NewDefaultLog [] ⟨[]⟩).2).1
        (With (NewDefaultLog [] ⟨[]⟩).1 [(("env"), ("test"))] (NewDefaultLog [] ⟨[]⟩).2).2
        ("boom") [] ("2024-01-15T10:30:00Z") [] none
      = ("2024-01-15T10:30:00Z |ERROR| env=testboom\n")
    ∧ ("2024-01-15T10:30:00Z |ERROR| env=testboom\n")
        ≠ ("2024-01-15T10:30:00Z |ERROR| env=test boom\n") := by
  constructor
  · decide
  · decide

/-- Claim C6, counterexample: when no frame is available at the target
index (empty abstract call stack), the debug-mode line renders the caller
as `#0` — the placeholder `"unknown"` lives in the fallback frame's
`Function` field, which `printLevel` never renders (it renders
`File + "#" + Itoa(Line)` of the zero frame) — so `"unknown"` does not
occur in the emitted line. -/
theorem c6_counterexample :
    Debugf (NewDefaultLog [WithDebugEnabled] ⟨[]⟩).1 (NewDefaultLog [WithDebugEnabled] ⟨[]⟩).2
        ("boom") [] ("2024-01-15T10:30:00Z") [] none
      = ("2024-01-15T10:30:00Z |DEBUG| #0 boom\n")
    ∧ ¬ (("unknown").data <:+: ("2024-01-15T10:30:00Z |DEBUG| #0 boom\n").data) := by
  constructor
  · decide
  · decide

/-- Claim C7, counterexample: the claim quantifies over every format
string, but the formatted message is spliced into the line verbatim, so
`Infof("|DEBUG|")` yields a line containing two level tags (`|INFO|` from
the line structure and `|DEBUG|` from the message), not exactly one. -/
theorem c7_counterexample :
    levelTagCount (Infof ⟨0, false, 0⟩ ⟨[[]]⟩ ("|DEBUG|") [] ("2024-01-15T10:30:00Z") [] none) = 2
    ∧ (2 : Nat) ≠ 1 := by
  constructor
  · decide
  · decide

theorem printLevel_eq_debug (dl : DefaultLog) (s : Store) (level fmtStr : String)
    (args : List String) (t : String) (stack : List Frame) (gp : Option String)
    (h : dl.enableDebug = true) :
    printLevel dl s level fmtStr args t stack gp
      = sprintf (t ++ (" |") ++ level ++ ("| ") ++ callerSegment stack gp ++ (" ")
          ++ joinSep (" ") (renderPairs (s.read dl.pairsRef)) ++ fmtStr ++ ("\n")) args := by
  simp [printLevel, h]

theorem printLevel_eq_plain (dl : DefaultLog) (s : Store) (level fmtStr : String)
    (args : List String) (t : String) (stack : List Frame) (gp : Option String)
    (h : dl.enableDebug = false) :
    printLevel dl s level fmtStr args t stack gp
      = sprintf (t ++ (" |") ++ level ++ ("| ")
          ++ joinSep (" ") (renderPairs (s.read dl.pairsRef)) ++ fmtStr ++ ("\n")) args := by
  simp [printLevel, h]

theorem line_ok (t level mid fmtStr : String) (args : List String)
    (hlv : level = ("DEBUG") ∨ level = ("INFO") ∨ level = ("ERROR"))
    (ht : cleanStr t) (hmid : cleanStr mid)
    (hok : fmtOk fmtStr.data = true) (hn : argsNeeded fmtStr.data = args.length)
    (hfb : '|' ∉ fmtStr.data) (hfn : '\n' ∉ fmtStr.data)
    (hargs : ∀ a ∈ args, '|' ∉ a.data ∧ '\n' ∉ a.data) :
    endsWithExactlyOneNewline
        (sprintf (t ++ (" |") ++ level ++ ("| ") ++ mid ++ fmtStr ++ ("\n")) args) = true
    ∧ levelTagCount
        (sprintf (t ++ (" |") ++ level ++ ("| ") ++ mid ++ fmtStr ++ ("\n")) args) = 1 := by
  obtain ⟨htp, htb, htn⟩ := ht
  obtain ⟨hmp, hmb, hmn⟩ := hmid
  have hlvp : '%' ∉ level.data := by
    rcases hlv with h | h | h <;> subst h <;> decide
  have hlvb : '|' ∉ level.data := by
    rcases hlv with h | h | h <;> subst h <;> decide
  have hlvn : '\n' ∉ level.data := by
    rcases hlv with h | h | h <;> subst h <;> decide
  have hprep : '%' ∉ (t ++ (" |") ++ level ++ ("| ") ++ mid).data :=
    not_mem_data_append _ _ _
      (not_mem_data_append _ _ _
        (not_mem_data_append _ _ _
          (not_mem_data_append _ _ _ htp (by decide)) hlvp) (by decide)) hmp
  have hargsl : ∀ la ∈ args.map (fun a => a.data), '|' ∉ la ∧ '\n' ∉ la := by
    intro la hla
    rcases List.mem_map.mp hla with ⟨a, ha, hrw⟩
    subst hrw
    exact hargs a ha
  have hMb : '|' ∉ sprintfChars fmtStr.data (args.map (fun a => a.data)) := by
    apply not_mem_sprintfChars _ _ _ (by decide) hfb
    intro a ha; exact (hargsl a ha).1
  have hMn : '\n' ∉ sprintfChars fmtStr.data (args.map (fun a => a.data)) := by
    apply not_mem_sprintfChars _ _ _ (by decide) hfn
    intro a ha; exact (hargsl a ha).2
  have hdata := sprintf_line_data (t ++ (" |") ++ level ++ ("| ") ++ mid) fmtStr args
    hprep hok hn
  have hpredata : (t ++ (" |") ++ level ++ ("| ") ++ mid).data
      = t.data ++ ((" |").data ++ (level.data ++ (("| ").data ++ mid.data))) := by
    simp [String.data_append, List.append_assoc]
  have hshape : (sprintf (t ++ (" |") ++ level ++ ("| ") ++ mid ++ fmtStr ++ ("\n")) args).data
      = (t.data ++ [' ']) ++ '|' :: (level.data ++ '|' :: (' ' :: (mid.data
          ++ (sprintfChars fmtStr.data (args.map (fun a => a.data)) ++ ['\n'])))) := by
    rw [hdata, hpredata]
    have h1 : (" |").data = [' ', '|'] := rfl
    have h2 : ("| ").data = ['|', ' '] := rfl
    rw [h1, h2]
    simp [List.append_assoc, List.cons_append]
  constructor
  · apply endsWithExactlyOneNewline_of _ ((t.data ++ [' ']) ++ '|' :: (level.data
      ++ '|' :: (' ' :: (mid.data ++ sprintfChars fmtStr.data (args.map (fun a => a.data))))))
    · rw [hshape]
      simp [List.append_assoc, List.cons_append]
    · intro hmem
      rcases List.mem_append.mp hmem with h1 | h2
      · rcases List.mem_append.mp h1 with h3 | h4
        · exact htn h3
        · simp at h4
      · rcases List.mem_cons.mp h2 with h3 | h4
        · exact absurd h3 (by decide)
        · rcases List.mem_append.mp h4 with h5 | h6
          · exact hlvn h5
          · rcases List.mem_cons.mp h6 with h7 | h8
            · exact absurd h7 (by decide)
            · rcases List.mem_cons.mp h8 with h9 | h10
              · exact absurd h9 (by decide)
              · rcases List.mem_append.mp h10 with h11 | h12
                · exact hmn h11
                · exact hMn h12
  · unfold levelTagCount
    rw [hshape]
    have hA : '|' ∉ (t.data ++ [' ']) := by
      intro hmem
      rcases List.mem_append.mp hmem with h1 | h2
      · exact htb h1
      · simp at h2
    have hBt : '|' ∉ (' ' :: (mid.data
        ++ (sprintfChars fmtStr.data (args.map (fun a => a.data)) ++ ['\n']))) := by
      intro hmem
      rcases List.mem_cons.mp hmem with h1 | h2
      · exact absurd h1 (by decide)
      · rcases List.mem_append.mp h2 with h3 | h4
        · exact hmb h3
        · rcases List.mem_append.mp h4 with h5 | h6
          · exact hMb h5
          · simp at h6
    have hd : ("|DEBUG|").data = '|' :: (("DEBUG").data ++ ['|']) := rfl
    have hi : ("|INFO|").data = '|' :: (("INFO").data ++ ['|']) := rfl
    have her : ("|ERROR|").data = '|' :: (("ERROR").data ++ ['|']) := rfl
    rw [hd, hi, her]
    rw [countOccur_tag _ _ _ _ hA (by decide) hlvb hBt,
        countOccur_tag _ _ _ _ hA (by decide) hlvb hBt,
        countOccur_tag _ _ _ _ hA (by decide) hlvb hBt]
    rcases hlv with h | h | h <;> subst h <;> decide

/-- Claim C7, amended: a line emitted through `printLevel` (the single path
of `Debugf`/`Infof`/`Errorf`, whose level is one of the three tags; a
suppressed `Debugf` emits nothing) ends with exactly one newline and
contains exactly one occurrence of a level tag, provided the
nondeterministic and user-supplied inputs are benign: the timestamp,
context keys and values, and the rendered caller segment contain no `%`,
`|` or newline; the format string is well formed, consumes exactly the
supplied arguments, and neither it nor any argument contains `|` or a
newline.  (The unamended claim fails because the message is spliced in
verbatim: see the counterexample.) -/
theorem c7_line_shape (dl : DefaultLog) (s : Store) (level fmtStr : String)
    (args : List String) (t : String) (stack : List Frame) (gp : Option String)
    (hlv : level = ("DEBUG") ∨ level = ("INFO") ∨ level = ("ERROR"))
    (ht : cleanStr t)
    (hpairs : ∀ kv ∈ s.read dl.pairsRef, cleanStr kv.1 ∧ cleanStr kv.2)
    (hcs : cleanStr (callerSegment stack gp))
    (hok : fmtOk fmtStr.data = true) (hn : argsNeeded fmtStr.data = args.length)
    (hfb : '|' ∉ fmtStr.data) (hfn : '\n' ∉ fmtStr.data)
    (hargs : ∀ a ∈ args, '|' ∉ a.data ∧ '\n' ∉ a.data) :
    endsWithExactlyOneNewline (printLevel dl s level fmtStr args t stack gp) = true
    ∧ levelTagCount (printLevel dl s level fmtStr args t stack gp) = 1
    ∧ Infof dl s fmtStr args t stack gp = printLevel dl s ("INFO") fmtStr args t stack gp
    ∧ Errorf dl s fmtStr args t stack gp = printLevel dl s ("ERROR") fmtStr args t stack gp
    ∧ (dl.enableDebug = true →
        Debugf dl s fmtStr args t stack gp
          = printLevel dl s ("DEBUG") fmtStr args t stack gp) := by
  have hJ : cleanStr (joinSep (" ") (renderPairs (s.read dl.pairsRef))) := by
    refine ⟨?_, ?_, ?_⟩
    · apply not_mem_joinSep _ _ (by decide)
      exact not_mem_renderPairs _ _ (by decide)
        (fun kv hkv => ⟨((hpairs kv hkv).1).1, ((hpairs kv hkv).2).1⟩)
    · apply not_mem_joinSep _ _ (by decide)
      exact not_mem_renderPairs _ _ (by decide)
        (fun kv hkv => ⟨((hpairs kv hkv).1).2.1, ((hpairs kv hkv).2).2.1⟩)
    · apply not_mem_joinSep _ _ (by decide)
      exact not_mem_renderPairs _ _ (by decide)
        (fun kv hkv => ⟨((hpairs kv hkv).1).2.2, ((hpairs kv hkv).2).2.2⟩)
  have hmain : endsWithExactlyOneNewline (printLevel dl s level fmtStr args t stack gp) = true
      ∧ levelTagCount (printLevel dl s level fmtStr args t stack gp) = 1 := by
    cases he : dl.enableDebug with
    | false =>
      rw [printLevel_eq_plain dl s level fmtStr args t stack gp he]
      exact line_ok t level _ fmtStr args hlv ht hJ hok hn hfb hfn hargs
    | true =>
      rw [printLevel_eq_debug dl s level fmtStr args t stack gp he]
      have hfmt : t ++ (" |") ++ level ++ ("| ") ++ callerSegment stack gp ++ (" ")
            ++ joinSep (" ") (renderPairs (s.read dl.pairsRef)) ++ fmtStr ++ ("\n")
          = t ++ (" |") ++ level ++ ("| ")
            ++ (callerSegment stack gp ++ (" ")
                ++ joinSep (" ") (renderPairs (s.read dl.pairsRef)))
            ++ fmtStr ++ ("\n") := by
        apply String.ext
        simp [String.data_append, List.append_assoc]
      rw [hfmt]
      refine line_ok t level _ fmtStr args hlv ht ?_ hok hn hfb hfn hargs
      exact ⟨not_mem_data_append _ _ _
              (not_mem_data_append _ _ _ hcs.1 (by decide)) hJ.1,
             not_mem_data_append _ _ _
              (not_mem_data_append _ _ _ hcs.2.1 (by decide)) hJ.2.1,
             not_mem_data_append _ _ _
              (not_mem_data_append _ _ _ hcs.2.2 (by decide)) hJ.2.2⟩
  exact ⟨hmain.1, hmain.2, rfl, rfl, fun h => by simp [Debugf, h]⟩

theorem c7_line_shape_witness :
    endsWithExactlyOneNewline (printLevel ⟨0, false, 0⟩ ⟨[[(("env"), ("test"))]]⟩ ("INFO")
        ("hello %s") ["world"] ("2024-01-15T10:30:00Z") [] none) = true
    ∧ levelTagCount (printLevel ⟨0, false, 0⟩ ⟨[[(("env"), ("test"))]]⟩ ("INFO")
        ("hello %s") ["world"] ("2024-01-15T10:30:00Z") [] none) = 1
    ∧ Infof ⟨0, false, 0⟩ ⟨[[(("env"), ("test"))]]⟩ ("hello %s") ["world"]
        ("2024-01-15T10:30:00Z") [] none
      = printLevel ⟨0, false, 0⟩ ⟨[[(("env"), ("test"))]]⟩ ("INFO") ("hello %s") ["world"]
        ("2024-01-15T10:30:00Z") [] none
    ∧ Errorf ⟨0, false, 0⟩ ⟨[[(("env"), ("test"))]]⟩ ("hello %s") ["world"]
        ("2024-01-15T10:30:00Z") [] none
      = printLevel ⟨0, false, 0⟩ ⟨[[(("env"), ("test"))]]⟩ ("ERROR") ("hello %s") ["world"]
        ("2024-01-15T10:30:00Z") [] none
    ∧ ((⟨0, false, 0⟩ : DefaultLog).enableDebug = true →
        Debugf ⟨0, false, 0⟩ ⟨[[(("env"), ("test"))]]⟩ ("hello %s") ["world"]
          ("2024-01-15T10:30:00Z") [] none
        = printLevel ⟨0, false, 0⟩ ⟨[[(("env"), ("test"))]]⟩ ("DEBUG") ("hello %s") ["world"]
          ("2024-01-15T10:30:00Z") [] none) :=
  c7_line_shape ⟨0, false, 0⟩ ⟨[[(("env"), ("test"))]]⟩ ("INFO") ("hello %s") ["world"]
    ("2024-01-15T10:30:00Z") [] none (Or.inr (Or.inl rfl)) (by decide) (by decide)
    (by decide) (by decide) (by decide) (by decide) (by decide) (by decide)

/-- Claim C1, amended: when the debug flag is disabled, `Infof` and
`Errorf` lines carry no caller segment — their output is independent of the
call stack and of `GOPATH` — and the example line `<timestamp> |INFO| hello
world\n` is emitted for a debug-disabled logger.  (With debug enabled the
caller segment appears on every level, including INFO and ERROR: see the
counterexample.) -/
theorem c1_no_caller_when_disabled (dl : DefaultLog) (s : Store) (fmtStr : String)
    (args : List String) (t : String) (stack stack' : List Frame)
    (gp gp' : Option String) (h : dl.enableDebug = false) :
    Infof dl s fmtStr args t stack gp = Infof dl s fmtStr args t stack' gp'
    ∧ Errorf dl s fmtStr args t stack gp = Errorf dl s fmtStr args t stack' gp'
    ∧ Infof ⟨0, false, 0⟩ ⟨[[]]⟩ ("hello %s") ["world"] ("2024-01-15T10:30:00Z") stack gp
        = ("2024-01-15T10:30:00Z |INFO| hello world\n") := by
  refine ⟨?_, ?_, ?_⟩
  · simp [Infof, printLevel, h]
  · simp [Errorf, printLevel, h]
  · have hx : Infof ⟨0, false, 0⟩ ⟨[[]]⟩ ("hello %s") ["world"]
        ("2024-01-15T10:30:00Z") stack gp
        = Infof ⟨0, false, 0⟩ ⟨[[]]⟩ ("hello %s") ["world"]
        ("2024-01-15T10:30:00Z") [] none := by
      simp [Infof, printLevel]
    rw [hx]
    decide

theorem c1_no_caller_when_disabled_witness :
    Infof ⟨0, false, 0⟩ ⟨[[]]⟩ ("m") [] ("T") [⟨("f"), ("g.go"), 3⟩] (some ("/go"))
      = Infof ⟨0, false, 0⟩ ⟨[[]]⟩ ("m") [] ("T") [] none
    ∧ Errorf ⟨0, false, 0⟩ ⟨[[]]⟩ ("m") [] ("T") [⟨("f"), ("g.go"), 3⟩] (some ("/go"))
      = Errorf ⟨0, false, 0⟩ ⟨[[]]⟩ ("m") [] ("T") [] none
    ∧ Infof ⟨0, false, 0⟩ ⟨[[]]⟩ ("hello %s") ["world"] ("2024-01-15T10:30:00Z")
        [⟨("f"), ("g.go"), 3⟩] (some ("/go"))
      = ("2024-01-15T10:30:00Z |INFO| hello world\n") :=
  c1_no_caller_when_disabled ⟨0, false, 0⟩ ⟨[[]]⟩ ("m") [] ("T")
    [⟨("f"), ("g.go"), 3⟩] [] (some ("/go")) none rfl

/-- A `%`-free format string with no operands is copied verbatim by
`sprintf`. -/
theorem sprintf_no_pct_str (F : String) (h : '%' ∉ F.data) : sprintf F [] = F := by
  apply String.ext
  show sprintfChars F.data [] = F.data
  exact sprintfChars_no_pct _ h

/-- Claim C3, amended: after `With({"env": "test"})`, `Errorf("boom")` emits
`<timestamp> |ERROR| env=testboom\n` — the joined pairs and the message are
concatenated with no separator (the source appends `fmtStr` directly after
`strings.Join(pairs, " ")`). -/
theorem c3_no_space_before_message (dl : DefaultLog) (s : Store) (t : String)
    (stack : List Frame) (gp : Option String) (hd : dl.enableDebug = false)
    (hm : s.read dl.pairsRef = [(("env"), ("test"))]) (ht : '%' ∉ t.data) :
    Errorf dl s ("boom") [] t stack gp = t ++ (" |ERROR| env=testboom\n") := by
  have hJ : joinSep (" ") (renderPairs [(("env"), ("test"))]) = ("env=test") := by decide
  have he : Errorf dl s ("boom") [] t stack gp
      = sprintf (t ++ (" |") ++ ("ERROR") ++ ("| ") ++ ("env=test") ++ ("boom") ++ ("\n")) [] := by
    rw [Errorf, printLevel_eq_plain dl s ("ERROR") ("boom") [] t stack gp hd, hm, hJ]
  rw [he]
  have hfmt : t ++ (" |") ++ ("ERROR") ++ ("| ") ++ ("env=test") ++ ("boom") ++ ("\n")
      = t ++ (" |ERROR| env=testboom\n") := by
    apply String.ext
    simp only [String.data_append, List.append_assoc]
    congr 1
  rw [hfmt]
  apply sprintf_no_pct_str
  apply not_mem_data_append _ _ _ ht (by decide)

theorem c3_no_space_before_message_witness :
    Errorf ⟨0, false, 0⟩ ⟨[[(("env"), ("test"))]]⟩ ("boom") [] ("2024-01-15T10:30:00Z") [] none
      = ("2024-01-15T10:30:00Z") ++ (" |ERROR| env=testboom\n") :=
  c3_no_space_before_message ⟨0, false, 0⟩ ⟨[[(("env"), ("test"))]]⟩
    ("2024-01-15T10:30:00Z") [] none rfl rfl (by decide)

/-- Claim C6, amended: when no frame is available at the target index, the
fallback frame `{Function: "unknown", File: "", Line: 0}` is used, and the
rendered caller segment of the debug-mode line is `"#0"` (the `"unknown"`
placeholder sits in the `Function` field, which `printLevel` does not
render). -/
theorem c6_unknown_frame_renders_hash_zero (dl : DefaultLog) (s : Store)
    (fmtStr : String) (args : List String) (t : String) (stack : List Frame)
    (hd : dl.enableDebug = true) (hlen : stack.length ≤ 4) :
    getFrame 2 stack = ⟨("unknown"), (""), 0⟩
    ∧ callerSegment stack none = ("#0")
    ∧ Debugf dl s fmtStr args t stack none
        = sprintf (t ++ (" |") ++ ("DEBUG") ++ ("| ") ++ ("#0") ++ (" ")
            ++ joinSep (" ") (renderPairs (s.read dl.pairsRef)) ++ fmtStr ++ ("\n")) args := by
  have hnone : (stack.take (min stack.length 6))[4]? = none := by
    apply List.getElem?_eq_none
    have hlt := List.length_take (min stack.length 6) stack
    omega
  have hgf : getFrame 2 stack = ⟨("unknown"), (""), 0⟩ := by
    simp [getFrame, hnone]
  have hcs : callerSegment stack none = ("#0") := by
    rw [callerSegment, hgf]
    decide
  refine ⟨hgf, hcs, ?_⟩
  rw [Debugf, if_neg (by simp [hd]), printLevel_eq_debug dl s ("DEBUG") fmtStr args t stack none hd,
    hcs]

theorem c6_unknown_frame_renders_hash_zero_witness :
    getFrame 2 ([] : List Frame) = ⟨("unknown"), (""), 0⟩
    ∧ callerSegment [] none = ("#0")
    ∧ Debugf ⟨0, true, 0⟩ ⟨[[]]⟩ ("boom") [] ("2024-01-15T10:30:00Z") [] none
        = sprintf (("2024-01-15T10:30:00Z") ++ (" |") ++ ("DEBUG") ++ ("| ") ++ ("#0") ++ (" ")
            ++ joinSep (" ") (renderPairs ((⟨[[]]⟩ : Store).read 0)) ++ ("boom") ++ ("\n")) [] :=
  c6_unknown_frame_renders_hash_zero ⟨0, true, 0⟩ ⟨[[]]⟩ ("boom") []
    ("2024-01-15T10:30:00Z") [] rfl (by decide)

/-- Claim C9, counterexample to its unconditional conclusion: after
`base.With({"k%d": "7"})` the pair is in the shared effective context
(lookup through the base reference yields `"7"`), yet the line emitted
through the original base reference does not contain the token `k%d=7` —
the whole line is handed to `Fprintf` as its format string, so the `%d`
inside the key is re-interpreted as a verb and renders as
`k%!d(MISSING)=7`. -/
theorem c9_counterexample :
    (With ⟨0, false, 0⟩ [(("k%d"), ("7"))] ⟨[[]]⟩).1 = ⟨0, false, 0⟩
    ∧ lookupKey ((With ⟨0, false, 0⟩ [(("k%d"), ("7"))] ⟨[[]]⟩).2.read 0) ("k%d")
        = some ("7")
    ∧ Infof ⟨0, false, 0⟩ (With ⟨0, false, 0⟩ [(("k%d"), ("7"))] ⟨[[]]⟩).2
        ("m") [] ("T") [] none
      = ("T |INFO| k%!d(MISSING)=7m\n")
    ∧ ¬ ((("k%d=7").data) <:+: (("T |INFO| k%!d(MISSING)=7m\n").data)) := by
  refine ⟨by decide, by decide, by decide, by decide⟩

/-- Claim C9, amended: `With` returns its receiver — the very same logger
instance — and merges the new pairs into the shared map storage in place,
so every `key=value` token of the new mapping is rendered among the
pair tokens of lines subsequently emitted through the original base
reference (which reads the same storage), and occurs verbatim inside every
such line provided the spliced strings are benign (no `%` in the merged
pairs, timestamp, level or caller segment; a well-formed format consuming
exactly its arguments).  Without the proviso a key containing a verb is
mangled by the `Fprintf` splicing: see the counterexample. -/
theorem c9_with_returns_receiver (dl : DefaultLog) (P : PairsMap) (s : Store)
    (k v lvl fmtStr : String) (args : List String) (t : String) (stack : List Frame)
    (gp : Option String)
    (hnd : (P.map Prod.fst).Nodup) (href : dl.pairsRef < s.maps.length)
    (hkv : lookupKey P k = some v)
    (hpt : '%' ∉ t.data) (hpl : '%' ∉ lvl.data)
    (hpairs : ∀ kv2 ∈ mapMerge (s.read dl.pairsRef) P,
      '%' ∉ kv2.1.data ∧ '%' ∉ kv2.2.data)
    (hpcs : '%' ∉ (callerSegment stack gp).data)
    (hok : fmtOk fmtStr.data = true) (hn : argsNeeded fmtStr.data = args.length) :
    (With dl P s).1 = dl
    ∧ (k ++ ("=") ++ v) ∈ renderPairs ((With dl P s).2.read dl.pairsRef)
    ∧ (k ++ ("=") ++ v).data <:+:
        (printLevel dl (With dl P s).2 lvl fmtStr args t stack gp).data := by
  have hread : (With dl P s).2.read dl.pairsRef = mapMerge (s.read dl.pairsRef) P :=
    read_write_lt s dl.pairsRef _ href
  have hmerged : lookupKey (mapMerge (s.read dl.pairsRef) P) k = some v := by
    rw [lookupKey_mapMerge P _ k hnd, hkv]
    rfl
  have htok : (k ++ ("=") ++ v) ∈ renderPairs (mapMerge (s.read dl.pairsRef) P) :=
    renderPairs_token _ _ _ (lookupKey_some_mem _ _ _ hmerged)
  refine ⟨rfl, by rw [hread]; exact htok, ?_⟩
  have hJinf : (k ++ ("=") ++ v).data
      <:+: (joinSep (" ") (renderPairs (mapMerge (s.read dl.pairsRef) P))).data :=
    infix_joinSep _ _ htok
  have hJp : '%' ∉ (joinSep (" ") (renderPairs (mapMerge (s.read dl.pairsRef) P))).data := by
    apply not_mem_joinSep _ _ (by decide)
    exact not_mem_renderPairs _ _ (by decide) hpairs
  cases he : dl.enableDebug with
  | false =>
    rw [printLevel_eq_plain dl (With dl P s).2 lvl fmtStr args t stack gp he, hread]
    have hpre : '%' ∉ (t ++ (" |") ++ lvl ++ ("| ")
        ++ joinSep (" ") (renderPairs (mapMerge (s.read dl.pairsRef) P))).data :=
      not_mem_data_append _ _ _
        (not_mem_data_append _ _ _
          (not_mem_data_append _ _ _ hpt (by decide)) hpl) (by decide)
        |> (fun hx => not_mem_data_append _ _ _ hx hJp)
    rw [sprintf_line_data _ fmtStr args hpre hok hn]
    have h1 : (k ++ ("=") ++ v).data <:+: (t ++ (" |") ++ lvl ++ ("| ")
        ++ joinSep (" ") (renderPairs (mapMerge (s.read dl.pairsRef) P))).data := by
      rw [String.data_append]
      exact hJinf.trans (List.suffix_append _ _).isInfix
    exact h1.trans (List.prefix_append _ _).isInfix
  | true =>
    rw [printLevel_eq_debug dl (With dl P s).2 lvl fmtStr args t stack gp he, hread]
    have hpre : '%' ∉ (t ++ (" |") ++ lvl ++ ("| ") ++ callerSegment stack gp ++ (" ")
        ++ joinSep (" ") (renderPairs (mapMerge (s.read dl.pairsRef) P))).data :=
      not_mem_data_append _ _ _
        (not_mem_data_append _ _ _
          (not_mem_data_append _ _ _
            (not_mem_data_append _ _ _
              (not_mem_data_append _ _ _ hpt (by decide)) hpl) (by decide)) hpcs)
        (by decide)
        |> (fun hx => not_mem_data_append _ _ _ hx hJp)
    rw [sprintf_line_data _ fmtStr args hpre hok hn]
    have h1 : (k ++ ("=") ++ v).data <:+: (t ++ (" |") ++ lvl ++ ("| ")
        ++ callerSegment stack gp ++ (" ")
        ++ joinSep (" ") (renderPairs (mapMerge (s.read dl.pairsRef) P))).data := by
      rw [String.data_append]
      exact hJinf.trans (List.suffix_append _ _).isInfix
    exact h1.trans (List.prefix_append _ _).isInfix

theorem c9_with_returns_receiver_witness :
    (With ⟨0, false, 0⟩ [(("a"), ("1"))] ⟨[[]]⟩).1 = ⟨0, false, 0⟩
    ∧ (("a") ++ ("=") ++ ("1"))
        ∈ renderPairs ((With ⟨0, false, 0⟩ [(("a"), ("1"))] ⟨[[]]⟩).2.read 0)
    ∧ (("a") ++ ("=") ++ ("1")).data <:+:
        (printLevel ⟨0, false, 0⟩ (With ⟨0, false, 0⟩ [(("a"), ("1"))] ⟨[[]]⟩).2
          ("INFO") ("m") [] ("T") [] none).data :=
  c9_with_returns_receiver ⟨0, false, 0⟩ [(("a"), ("1"))] ⟨[[]]⟩ ("a") ("1") ("INFO")
    ("m") [] ("T") [] none (by decide) (by decide) (by decide) (by decide) (by decide)
    (by decide) (by decide) (by decide) (by decide)

/-- Claim C5, counterexample to its unconditional 'all such pairs appear
as key=value tokens in subsequently emitted lines': after
`With({"a%s": "1"})` the pair is in the effective context (lookup yields
`"1"`), yet the line emitted by the returned logger does not contain the
token `a%s=1` — the joined pairs are spliced into the `Fprintf` format
string, so the `%s` inside the key is re-interpreted as a verb with no
operand left and renders as `a%!s(MISSING)=1`. -/
theorem c5_counterexample :
    lookupKey ((With ⟨0, false, 0⟩ [(("a%s"), ("1"))] ⟨[[]]⟩).2.read
        (With ⟨0, false, 0⟩ [(("a%s"), ("1"))] ⟨[[]]⟩).1.pairsRef) ("a%s") = some ("1")
    ∧ Infof (With ⟨0, false, 0⟩ [(("a%s"), ("1"))] ⟨[[]]⟩).1
        (With ⟨0, false, 0⟩ [(("a%s"), ("1"))] ⟨[[]]⟩).2 ("m") [] ("T") [] none
      = ("T |INFO| a%!s(MISSING)=1m\n")
    ∧ ¬ ((("a%s=1").data) <:+: (("T |INFO| a%!s(MISSING)=1m\n").data)) := by
  refine ⟨by decide, by decide, by decide⟩

/-- Claim C5, amended: the logger returned by `With(P2)` has effective
context the merge of the prior mapping with `P2` — `P2`'s value for each of
its keys (overwriting same-named prior keys) and the prior value for every
other key — and every effective pair is rendered among the line's
`key=value` tokens; each such token occurs verbatim inside every
subsequently emitted line provided the spliced strings are benign (no `%`
in the merged pairs, timestamp, level or caller segment; a well-formed
format consuming exactly its arguments).  Without the proviso a pair whose
key or value contains a verb is mangled by the `Fprintf` splicing and its
token is absent from the line: see the counterexample. -/
theorem c5_with_overwrite_retain (dl : DefaultLog) (s : Store) (P2 : PairsMap)
    (k v lvl fmtStr : String) (args : List String) (t : String) (stack : List Frame)
    (gp : Option String)
    (hnd : (P2.map Prod.fst).Nodup) (href : dl.pairsRef < s.maps.length)
    (hpt : '%' ∉ t.data) (hpl : '%' ∉ lvl.data)
    (hpairs : ∀ kv2 ∈ mapMerge (s.read dl.pairsRef) P2,
      '%' ∉ kv2.1.data ∧ '%' ∉ kv2.2.data)
    (hpcs : '%' ∉ (callerSegment stack gp).data)
    (hok : fmtOk fmtStr.data = true) (hn : argsNeeded fmtStr.data = args.length) :
    (With dl P2 s).2.read (With dl P2 s).1.pairsRef = mapMerge (s.read dl.pairsRef) P2
    ∧ lookupKey (mapMerge (s.read dl.pairsRef) P2) k
        = (lookupKey P2 k).or (lookupKey (s.read dl.pairsRef) k)
    ∧ (lookupKey (mapMerge (s.read dl.pairsRef) P2) k = some v →
        (k ++ ("=") ++ v) ∈ renderPairs (mapMerge (s.read dl.pairsRef) P2))
    ∧ (lookupKey (mapMerge (s.read dl.pairsRef) P2) k = some v →
        (k ++ ("=") ++ v).data <:+:
          (printLevel (With dl P2 s).1 (With dl P2 s).2 lvl fmtStr args t stack gp).data) := by
  have hread : (With dl P2 s).2.read (With dl P2 s).1.pairsRef
      = mapMerge (s.read dl.pairsRef) P2 :=
    read_write_lt s dl.pairsRef _ href
  have hlook := lookupKey_mapMerge P2 (s.read dl.pairsRef) k hnd
  have hmem : lookupKey (mapMerge (s.read dl.pairsRef) P2) k = some v →
      (k ++ ("=") ++ v) ∈ renderPairs (mapMerge (s.read dl.pairsRef) P2) := by
    intro h
    exact renderPairs_token _ _ _ (lookupKey_some_mem _ _ _ h)
  refine ⟨hread, hlook, hmem, ?_⟩
  intro h
  have htok := hmem h
  have hJinf : (k ++ ("=") ++ v).data
      <:+: (joinSep (" ") (renderPairs (mapMerge (s.read dl.pairsRef) P2))).data :=
    infix_joinSep _ _ htok
  have hJp : '%' ∉ (joinSep (" ") (renderPairs (mapMerge (s.read dl.pairsRef) P2))).data := by
    apply not_mem_joinSep _ _ (by decide)
    exact not_mem_renderPairs _ _ (by decide) hpairs
  cases he : dl.enableDebug with
  | false =>
    rw [printLevel_eq_plain (With dl P2 s).1 (With dl P2 s).2 lvl fmtStr args t stack gp he,
      hread]
    have hpre : '%' ∉ (t ++ (" |") ++ lvl ++ ("| ")
        ++ joinSep (" ") (renderPairs (mapMerge (s.read dl.pairsRef) P2))).data :=
      not_mem_data_append _ _ _
        (not_mem_data_append _ _ _
          (not_mem_data_append _ _ _ hpt (by decide)) hpl) (by decide)
        |> (fun hx => not_mem_data_append _ _ _ hx hJp)
    rw [sprintf_line_data _ fmtStr args hpre hok hn]
    have h1 : (k ++ ("=") ++ v).data <:+: (t ++ (" |") ++ lvl ++ ("| ")
        ++ joinSep (" ") (renderPairs (mapMerge (s.read dl.pairsRef) P2))).data := by
      rw [String.data_append]
      exact hJinf.trans (List.suffix_append _ _).isInfix
    exact h1.trans (List.prefix_append _ _).isInfix
  | true =>
    rw [printLevel_eq_debug (With dl P2 s).1 (With dl P2 s).2 lvl fmtStr args t stack gp he,
      hread]
    have hpre : '%' ∉ (t ++ (" |") ++ lvl ++ ("| ") ++ callerSegment stack gp ++ (" ")
        ++ joinSep (" ") (renderPairs (mapMerge (s.read dl.pairsRef) P2))).data :=
      not_mem_data_append _ _ _
        (not_mem_data_append _ _ _
          (not_mem_data_append _ _ _
            (not_mem_data_append _ _ _
              (not_mem_data_append _ _ _ hpt (by decide)) hpl) (by decide)) hpcs)
        (by decide)
        |> (fun hx => not_mem_data_append _ _ _ hx hJp)
    rw [sprintf_line_data _ fmtStr args hpre hok hn]
    have h1 : (k ++ ("=") ++ v).data <:+: (t ++ (" |") ++ lvl ++ ("| ")
        ++ callerSegment stack gp ++ (" ")
        ++ joinSep (" ") (renderPairs (mapMerge (s.read dl.pairsRef) P2))).data := by
      rw [String.data_append]
      exact hJinf.trans (List.suffix_append _ _).isInfix
    exact h1.trans (List.prefix_append _ _).isInfix

theorem c5_with_overwrite_retain_witness :
    (With ⟨0, false, 0⟩ [(("env"), ("test"))] ⟨[[(("keep"), ("x"))]]⟩).2.read
        (With ⟨0, false, 0⟩ [(("env"), ("test"))] ⟨[[(("keep"), ("x"))]]⟩).1.pairsRef
      = mapMerge ((⟨[[(("keep"), ("x"))]]⟩ : Store).read 0) [(("env"), ("test"))]
    ∧ lookupKey (mapMerge ((⟨[[(("keep"), ("x"))]]⟩ : Store).read 0) [(("env"), ("test"))])
          ("env")
        = (lookupKey [(("env"), ("test"))] ("env")).or
            (lookupKey ((⟨[[(("keep"), ("x"))]]⟩ : Store).read 0) ("env"))
    ∧ (lookupKey (mapMerge ((⟨[[(("keep"), ("x"))]]⟩ : Store).read 0) [(("env"), ("test"))])
          ("env") = some ("test") →
        (("env") ++ ("=") ++ ("test")) ∈ renderPairs
          (mapMerge ((⟨[[(("keep"), ("x"))]]⟩ : Store).read 0) [(("env"), ("test"))]))
    ∧ (lookupKey (mapMerge ((⟨[[(("keep"), ("x"))]]⟩ : Store).read 0) [(("env"), ("test"))])
          ("env") = some ("test") →
        (("env") ++ ("=") ++ ("test")).data <:+:
          (printLevel (With ⟨0, false, 0⟩ [(("env"), ("test"))] ⟨[[(("keep"), ("x"))]]⟩).1
            (With ⟨0, false, 0⟩ [(("env"), ("test"))] ⟨[[(("keep"), ("x"))]]⟩).2
            ("INFO") ("m") [] ("T") [] none).data) :=
  c5_with_overwrite_retain ⟨0, false, 0⟩ ⟨[[(("keep"), ("x"))]]⟩ [(("env"), ("test"))]
    ("env") ("test") ("INFO") ("m") [] ("T") [] none
    (by decide) (by decide) (by decide) (by decide) (by decide) (by decide)
    (by decide) (by decide)

end Lounge
